import Mathlib

/-!
Shallow embedding of pubsubc (src/main.go): a tool that reads environment
variables PUBSUB_PROJECT1, PUBSUB_PROJECT2, ... and provisions pub/sub
topics and subscriptions.  The provisioning backend (the Google pubsub
client) is modelled as an oracle saying which connect / createTopic /
createSubscription calls succeed; the embedding records the sequence of
backend calls issued (the trace) together with the first error returned.
-/

/-- Model of Go `strings.Split` with a single-character separator
(the source only ever splits on ",", ":", "+").  Never returns `[]`;
splitting the empty string yields `[""]`. -/
def splitOnCharAux (c : Char) : List Char → List Char → List String
  | [], acc => [String.mk acc.reverse]
  | x :: xs, acc =>
    if x = c then String.mk acc.reverse :: splitOnCharAux c xs []
    else splitOnCharAux c xs (x :: acc)

/-- Split a string on a single character, Go `strings.Split` style. -/
def splitOnChar (c : Char) (s : String) : List String :=
  splitOnCharAux c s.data []

/-- Model of Go `strings.Replace(s, old, new, 1)` for one-character
patterns: replace only the first occurrence. -/
def replaceFirstCharAux (old new : Char) : List Char → List Char
  | [] => []
  | x :: xs => if x = old then new :: xs else x :: replaceFirstCharAux old new xs

/-- Replace the first occurrence of `old` by `new` in `s`. -/
def replaceFirstChar (old new : Char) (s : String) : String :=
  String.mk (replaceFirstCharAux old new s.data)

/-- One call issued to the provisioning backend.  `createSubscription`
records the subscription id, the topic it is bound to, the optional push
endpoint URL, and the optional dead-letter policy (dead-letter topic
fully-qualified name, maximum delivery attempts). -/
inductive Call where
  | connect (projectID : String)
  | createTopic (topicID : String)
  | createSubscription (subscriptionID topicID : String)
      (pushEndpoint : Option String) (deadLetter : Option (String × Nat))
  | close
deriving Repr, DecidableEq

/-- The error returned by `create`, one constructor per `fmt.Errorf` site
in src/main.go (lines 51, 61, 79, 93, 113, 118). -/
inductive CreateError where
  | clientErr (projectID : String)
  | topicErr (topicID projectID : String)
  | dlqTopicErr (topicID projectID : String)
  | dlqSubErr (dlqTopicID projectID : String)
  | pushSubErr (subscriptionID topicID projectID pushEndpoint : String)
  | plainSubErr (subscriptionID topicID projectID : String)
deriving Repr, DecidableEq

/-- Oracle for the opaque provisioning backend: which connects, topic
creations and subscription creations succeed. -/
structure Backend where
  connectOk : String → Bool
  topicOk : String → Bool
  subOk : String → Bool

/-- Modelled from the spec: the backend's `topicHandle.fullyQualifiedName()`
(`dlqTopic.String()` of the pubsub client library, which is not part of
src/): the fully-qualified name of a topic. -/
def topicFQN (projectID topicID : String) : String :=
  "projects/" ++ projectID ++ "/topics/" ++ topicID

/-- The `Topics` type of src/main.go line 27 (`map[string][]string`),
modelled as an association list with unique keys; `insertTopic` below
reproduces map assignment, and map iteration order is modelled by
quantifying over permutations of the entries where it matters. -/
abbrev Topics := List (String × List String)

/-- Go map assignment `topics[k] = v`: overwrite the value when the key
is present, otherwise add the entry. -/
def insertTopic (m : Topics) (k : String) (v : List String) : Topics :=
  if m.any (fun p => p.1 == k) then
    m.map (fun p => if p.1 = k then (k, v) else p)
  else m ++ [(k, v)]

/-- Plain-subscription branch of `create` (src/main.go lines 115-120):
no push configuration. -/
def handlePlain (be : Backend) (projectID topicID subscriptionID : String) :
    List Call × Option CreateError :=
  ([Call.createSubscription subscriptionID topicID none none],
   if be.subOk subscriptionID then none
   else some (CreateError.plainSubErr subscriptionID topicID projectID))

/-- Push-subscription branch of `create` without a dead-letter policy
(src/main.go lines 68-70 and 103-114): the endpoint spec has its first
`|` replaced by `:` and is prefixed with `http://`. -/
def handlePush (be : Backend) (projectID topicID subscriptionID endpointSpec : String) :
    List Call × Option CreateError :=
  let pushEndpoint := replaceFirstChar '|' ':' endpointSpec
  ([Call.createSubscription subscriptionID topicID
      (some ("http://" ++ pushEndpoint)) none],
   if be.subOk subscriptionID then none
   else some (CreateError.pushSubErr subscriptionID topicID projectID pushEndpoint))

/-- Dead-letter branch of `create` (src/main.go lines 73-114): create the
DLQ topic, then the DLQ subscription, then the primary push subscription
carrying the dead-letter policy. -/
def handleDlq (be : Backend) (projectID topicID subscriptionID endpointSpec : String) :
    List Call × Option CreateError :=
  let pushEndpoint := replaceFirstChar '|' ':' endpointSpec
  let dlqTopicID := topicID ++ "-dlq"
  if be.topicOk dlqTopicID then
    let dlqSubscriptionID := subscriptionID ++ "-dlq"
    let dlqSubCall := Call.createSubscription dlqSubscriptionID dlqTopicID
        (some ("http://" ++ pushEndpoint ++ "/dead")) none
    if be.subOk dlqSubscriptionID then
      let primaryCall := Call.createSubscription subscriptionID topicID
          (some ("http://" ++ pushEndpoint))
          (some (topicFQN projectID dlqTopicID, 5))
      ([Call.createTopic dlqTopicID, dlqSubCall, primaryCall],
       if be.subOk subscriptionID then none
       else some (CreateError.pushSubErr subscriptionID topicID projectID pushEndpoint))
    else
      ([Call.createTopic dlqTopicID, dlqSubCall],
       some (CreateError.dlqSubErr dlqTopicID projectID))
  else
    ([Call.createTopic dlqTopicID],
     some (CreateError.dlqTopicErr topicID projectID))

/-- Processing of one subscription token (src/main.go lines 64-121):
split on `+`; one segment is a plain subscription, more than one is a
push subscription, and exactly three segments with third segment `dlq`
additionally wire a dead-letter chain.  `splitOnChar` never returns `[]`,
so the first match arm is unreachable (Go indexes `subscriptionParts[0]`
unguarded). -/
def handleToken (be : Backend) (projectID topicID subscription : String) :
    List Call × Option CreateError :=
  match splitOnChar '+' subscription with
  | [] => handlePlain be projectID topicID ""
  | [subscriptionID] => handlePlain be projectID topicID subscriptionID
  | [subscriptionID, endpointSpec] =>
      handlePush be projectID topicID subscriptionID endpointSpec
  | [subscriptionID, endpointSpec, third] =>
      if third = "dlq" then handleDlq be projectID topicID subscriptionID endpointSpec
      else handlePush be projectID topicID subscriptionID endpointSpec
  | subscriptionID :: endpointSpec :: _ :: _ :: _ =>
      handlePush be projectID topicID subscriptionID endpointSpec

/-- The inner loop of `create` over one topic's subscription tokens
(src/main.go lines 64-121), stopping at the first error. -/
def handleSubscriptions (be : Backend) (projectID topicID : String) :
    List String → List Call × Option CreateError
  | [] => ([], none)
  | s :: rest =>
    match handleToken be projectID topicID s with
    | (tr, some e) => (tr, some e)
    | (tr, none) =>
      match handleSubscriptions be projectID topicID rest with
      | (tr2, e2) => (tr ++ tr2, e2)

/-- The outer loop of `create` over the topics (src/main.go lines 57-122),
in the given iteration order, stopping at the first error. -/
def handleTopics (be : Backend) (projectID : String) :
    List (String × List String) → List Call × Option CreateError
  | [] => ([], none)
  | (topicID, subscriptions) :: rest =>
    if be.topicOk topicID then
      match handleSubscriptions be projectID topicID subscriptions with
      | (tr, some e) => (Call.createTopic topicID :: tr, some e)
      | (tr, none) =>
        match handleTopics be projectID rest with
        | (tr2, e2) => (Call.createTopic topicID :: tr ++ tr2, e2)
    else
      ([Call.createTopic topicID], some (CreateError.topicErr topicID projectID))

/-- The `create` function of src/main.go lines 48-125, over a chosen
iteration order of the topics map.  On connect failure nothing else is
issued; otherwise `client.Close()` (the deferred call) always ends the
trace, error or not. -/
def create (be : Backend) (projectID : String) (topics : List (String × List String)) :
    List Call × Option CreateError :=
  if be.connectOk projectID then
    match handleTopics be projectID topics with
    | (tr, e) => (Call.connect projectID :: (tr ++ [Call.close]), e)
  else ([], some (CreateError.clientErr projectID))

/-- Parsing of the topic fields (src/main.go lines 166-170): each field
is split on `:`; the first segment is the topic id, the rest are its
subscription tokens, stored by map assignment. -/
def parseTopics (fields : List String) : Topics :=
  fields.foldl
    (fun m part =>
      let topicParts := splitOnChar ':' part
      insertTopic m (topicParts.headD "") (topicParts.drop 1))
    []

/-- Parsing of one environment-variable value (src/main.go lines 159-170):
split on `,`; fewer than two fields is the malformed-spec failure
(`fatalf` at line 162), otherwise the first field is the project id and
the remaining fields are the topic definitions. -/
def parseProject (env : String) : Option (String × Topics) :=
  let parts := splitOnChar ',' env
  if parts.length < 2 then none
  else some (parts.headD "", parseTopics (parts.drop 1))

/-- The environment-variable name of index `i` (src/main.go line 147). -/
def envName (i : Nat) : String := "PUBSUB_PROJECT" ++ toString i

/-- The fatal error a run can end with: the malformed-spec `fatalf` of
line 162, or the first error of a failed `create` (line 174). -/
inductive RunError where
  | malformedSpec (envVar : String)
  | createFailed (e : CreateError)
deriving Repr, DecidableEq

/-- Observable outcome of a run of `main`'s loop: the backend calls
issued, the process exit code, whether usage was printed, and the fatal
error reported, if any. -/
structure RunResult where
  trace : List Call
  exitCode : Nat
  usagePrinted : Bool
  errOut : Option RunError
deriving Repr, DecidableEq

/-- The loop of `main` (src/main.go lines 145-176) starting at index `i`:
`envs` holds the values of PUBSUB_PROJECT(i), PUBSUB_PROJECT(i+1), ...;
a variable beyond the list is absent, which `os.Getenv` reports as `""`.
An empty value at index 1 prints usage and exits 1; at a later index it
ends the batch with exit 0.  `ord` chooses the iteration order of each
project's topics map. -/
def runFrom (be : Backend) (ord : Topics → Topics) :
    List String → Nat → RunResult
  | [], i => if i = 1 then ⟨[], 1, true, none⟩ else ⟨[], 0, false, none⟩
  | env :: rest, i =>
    if env = "" then
      (if i = 1 then ⟨[], 1, true, none⟩ else ⟨[], 0, false, none⟩)
    else
      match parseProject env with
      | none => ⟨[], 1, false, some (RunError.malformedSpec (envName i))⟩
      | some (projectID, topics) =>
        match create be projectID (ord topics) with
        | (tr, some e) => ⟨tr, 1, false, some (RunError.createFailed e)⟩
        | (tr, none) =>
          match runFrom be ord rest (i + 1) with
          | ⟨tr2, code, usage, err⟩ => ⟨tr ++ tr2, code, usage, err⟩

/-- A whole run of `main`'s loop, from PUBSUB_PROJECT1. -/
def run (be : Backend) (ord : Topics → Topics) (envs : List String) : RunResult :=
  runFrom be ord envs 1

/-- The topic ids of the `createTopic` calls of a trace, in order. -/
def createTopicCalls (tr : List Call) : List String :=
  tr.filterMap fun c =>
    match c with
    | Call.createTopic t => some t
    | _ => none

/-- The subscription id of a call when it creates a subscription bound to
topic `t`. -/
def subCallFor (t : String) : Call → Option String
  | Call.createSubscription id t' _ _ => if t' = t then some id else none
  | _ => none

/-- The ids of the subscriptions a trace creates bound to topic `t`,
in order. -/
def subCallsFor (t : String) (tr : List Call) : List String :=
  tr.filterMap (subCallFor t)

/-- The subscription id of a token: its first `+`-segment. -/
def tokenID (s : String) : String := (splitOnChar '+' s).headD ""

/-- Whether a token takes the dead-letter branch: exactly three
`+`-segments with third segment `dlq`. -/
def isDlqToken (s : String) : Bool :=
  match splitOnChar '+' s with
  | [_, _, third] => third == "dlq"
  | _ => false

/-- Whether one environment value parses and provisions without error. -/
def envOk (be : Backend) (ord : Topics → Topics) (env : String) : Bool :=
  match parseProject env with
  | none => false
  | some (projectID, topics) => (create be projectID (ord topics)).2.isNone

/-- The trace one environment value contributes to a run. -/
def projTrace (be : Backend) (ord : Topics → Topics) (env : String) : List Call :=
  match parseProject env with
  | none => []
  | some (projectID, topics) => (create be projectID (ord topics)).1

/-- A backend on which every call succeeds. -/
def allOk : Backend := ⟨fun _ => true, fun _ => true, fun _ => true⟩

/-- A backend that fails exactly the creation of topic `tA`. -/
def beC1 : Backend := ⟨fun _ => true, fun t => t != "tA", fun _ => true⟩

/-- A backend on which every topic creation fails. -/
def beTopicFail : Backend := ⟨fun _ => true, fun _ => false, fun _ => true⟩

theorem append_dlq_ne (t : String) : t ++ "-dlq" ≠ t := by
  intro h
  have h2 := congrArg String.length h
  have h3 : ("-dlq" : String).length = 4 := rfl
  rw [String.length_append, h3] at h2
  omega

/-- C2: a three-segment token ending in the literal `dlq` creates the
dead-letter topic `<topicID>-dlq`, then the dead-letter subscription
`<subscriptionID>-dlq` bound to it with push endpoint
`http://<host:port>/dead`, both strictly before the primary subscription,
which is bound to the original topic with push endpoint `http://<host:port>`
and a dead-letter policy naming the dead-letter topic's fully-qualified
name with maximum delivery attempts 5. -/
theorem claimC2 (be : Backend) (pid t s id ep : String)
    (hs : splitOnChar '+' s = [id, ep, "dlq"])
    (h1 : be.topicOk (t ++ "-dlq") = true)
    (h2 : be.subOk (id ++ "-dlq") = true) :
    handleToken be pid t s =
      ([Call.createTopic (t ++ "-dlq"),
        Call.createSubscription (id ++ "-dlq") (t ++ "-dlq")
          (some ("http://" ++ replaceFirstChar '|' ':' ep ++ "/dead")) none,
        Call.createSubscription id t
          (some ("http://" ++ replaceFirstChar '|' ':' ep))
          (some (topicFQN pid (t ++ "-dlq"), 5))],
       if be.subOk id then none
       else some (CreateError.pushSubErr id t pid (replaceFirstChar '|' ':' ep))) := by
  simp [handleToken, hs, handleDlq, h1, h2]

theorem claimC2_witness :
    handleToken allOk "proj1" "topicA" "sub1+host1|8080+dlq" =
      ([Call.createTopic "topicA-dlq",
        Call.createSubscription "sub1-dlq" "topicA-dlq"
          (some "http://host1:8080/dead") none,
        Call.createSubscription "sub1" "topicA" (some "http://host1:8080")
          (some ("projects/proj1/topics/topicA-dlq", 5))], none) := by
  rw [claimC2 allOk "proj1" "topicA" "sub1+host1|8080+dlq" "sub1" "host1|8080"
    (by decide) (by decide) (by decide)]
  decide

/-- C3 counterexample: for the token `s1+h|80+x` (three segments, third
segment not `dlq`) the code raises no error and does create a push
subscription, contradicting the claim that decomposition fails and no
subscription is created. -/
theorem claimC3_counterexample :
    create allOk "p" [("t", ["s1+h|80+x"])] =
      ([Call.connect "p", Call.createTopic "t",
        Call.createSubscription "s1" "t" (some "http://h:80") none,
        Call.close], none) ∧
    (create allOk "p" [("t", ["s1+h|80+x"])]).2 = none ∧
    Call.createSubscription "s1" "t" (some "http://h:80") none
      ∈ (create allOk "p" [("t", ["s1+h|80+x"])]).1 := by
  refine ⟨by decide, by decide, by decide⟩

/-- C3 amended: a token of exactly three `+`-segments whose third segment
is not the literal `dlq` is not rejected; it is treated as an ordinary
push subscription whose endpoint comes from the second segment, and the
third segment is silently ignored (there is no MalformedSpec failure in
the program for this shape). -/
theorem claimC3_amended (be : Backend) (pid t s id ep x : String)
    (hs : splitOnChar '+' s = [id, ep, x]) (hx : x ≠ "dlq") :
    handleToken be pid t s =
      ([Call.createSubscription id t
          (some ("http://" ++ replaceFirstChar '|' ':' ep)) none],
       if be.subOk id then none
       else some (CreateError.pushSubErr id t pid (replaceFirstChar '|' ':' ep))) := by
  simp [handleToken, hs, hx, handlePush]

theorem claimC3_amended_witness :
    handleToken allOk "p" "t" "s1+h|80+x" =
      ([Call.createSubscription "s1" "t" (some "http://h:80") none], none) := by
  rw [claimC3_amended allOk "p" "t" "s1+h|80+x" "s1" "h|80" "x" (by decide) (by decide)]
  decide

/-- C6: token decomposition dispatches on the number of `+`-segments: a
single segment yields a plain subscription bound to the topic with no
push configuration; two segments yield a push subscription whose endpoint
is the second segment with only its first `|` replaced by `:`, prefixed
with the fixed scheme `http://`. -/
theorem claimC6 (be : Backend) (pid t s : String) :
    (∀ id, splitOnChar '+' s = [id] →
      handleToken be pid t s =
        ([Call.createSubscription id t none none],
         if be.subOk id then none
         else some (CreateError.plainSubErr id t pid))) ∧
    (∀ id ep, splitOnChar '+' s = [id, ep] →
      handleToken be pid t s =
        ([Call.createSubscription id t
            (some ("http://" ++ replaceFirstChar '|' ':' ep)) none],
         if be.subOk id then none
         else some (CreateError.pushSubErr id t pid (replaceFirstChar '|' ':' ep)))) := by
  constructor
  · intro id hs
    simp [handleToken, hs, handlePlain]
  · intro id ep hs
    simp [handleToken, hs, handlePush]

theorem claimC6_witness :
    handleToken allOk "proj1" "topicA" "sub1" =
      ([Call.createSubscription "sub1" "topicA" none none], none) ∧
    handleToken allOk "proj1" "topicA" "sub1+host1|8080" =
      ([Call.createSubscription "sub1" "topicA" (some "http://host1:8080") none],
       none) ∧
    handleToken allOk "proj1" "topicA" "sub2+h|1|2" =
      ([Call.createSubscription "sub2" "topicA" (some "http://h:1|2") none],
       none) := by
  refine ⟨?_, ?_, ?_⟩
  · rw [(claimC6 allOk "proj1" "topicA" "sub1").1 "sub1" (by decide)]
    decide
  · rw [(claimC6 allOk "proj1" "topicA" "sub1+host1|8080").2 "sub1" "host1|8080"
      (by decide)]
    decide
  · rw [(claimC6 allOk "proj1" "topicA" "sub2+h|1|2").2 "sub2" "h|1|2" (by decide)]
    decide

/-- C7: when the session is acquired and the first topic's creation
fails, `create` returns exactly that first error, issues no subscription
call for that topic and no call for any later topic, performs no rollback
call, and still releases the session (the trace ends with `close`). -/
theorem claimC7 (be : Backend) (pid t : String) (subs : List String)
    (rest : List (String × List String))
    (hc : be.connectOk pid = true) (ht : be.topicOk t = false) :
    create be pid ((t, subs) :: rest) =
      ([Call.connect pid, Call.createTopic t, Call.close],
       some (CreateError.topicErr t pid)) := by
  simp [create, handleTopics, hc, ht]

theorem claimC7_witness :
    create beTopicFail "p1" [("tA", ["s1", "s2"]), ("tB", [])] =
      ([Call.connect "p1", Call.createTopic "tA", Call.close],
       some (CreateError.topicErr "tA" "p1")) := by
  exact claimC7 beTopicFail "p1" "tA" ["s1", "s2"] [("tB", [])] (by decide) (by decide)

/-- C10: a token of four or more `+`-segments is treated as an ordinary
push subscription whose endpoint is the second segment; the dead-letter
branch requires exactly three segments, so a literal `dlq` third segment
is silently ignored when further segments follow (no dead-letter topic or
subscription is created and no error is raised for the extra segments). -/
theorem claimC10 (be : Backend) (pid t s id ep a b : String) (rest : List String)
    (hs : splitOnChar '+' s = id :: ep :: a :: b :: rest) :
    handleToken be pid t s =
      ([Call.createSubscription id t
          (some ("http://" ++ replaceFirstChar '|' ':' ep)) none],
       if be.subOk id then none
       else some (CreateError.pushSubErr id t pid (replaceFirstChar '|' ':' ep))) := by
  simp [handleToken, hs, handlePush]

theorem claimC10_witness :
    handleToken allOk "p" "t" "s1+h|80+dlq+x" =
      ([Call.createSubscription "s1" "t" (some "http://h:80") none], none) := by
  rw [claimC10 allOk "p" "t" "s1+h|80+dlq+x" "s1" "h|80" "dlq" "x" [] (by decide)]
  decide

theorem handleToken_allOk (pid t s : String) :
    subCallsFor t (handleToken allOk pid t s).1 = [tokenID s] ∧
    (handleToken allOk pid t s).2 = none := by
  rcases hsp : splitOnChar '+' s with _ | ⟨id, _ | ⟨ep, _ | ⟨third, _ | ⟨d, rest⟩⟩⟩⟩
  · simp [handleToken, hsp, handlePlain, allOk, subCallsFor, subCallFor, tokenID]
  · simp [handleToken, hsp, handlePlain, allOk, subCallsFor, subCallFor, tokenID]
  · simp [handleToken, hsp, handlePush, allOk, subCallsFor, subCallFor, tokenID]
  · by_cases hd : third = "dlq"
    · subst hd
      simp [handleToken, hsp, handleDlq, allOk, subCallsFor, subCallFor, tokenID,
        append_dlq_ne t]
    · simp [handleToken, hsp, hd, handlePush, allOk, subCallsFor, subCallFor, tokenID]
  · simp [handleToken, hsp, handlePush, allOk, subCallsFor, subCallFor, tokenID]

theorem allOk_connectOk (s : String) : allOk.connectOk s = true := rfl

theorem allOk_topicOk (s : String) : allOk.topicOk s = true := rfl

theorem allOk_subOk (s : String) : allOk.subOk s = true := rfl

theorem subCallsFor_nil (t : String) : subCallsFor t [] = [] := rfl

theorem subCallsFor_append (t : String) (a b : List Call) :
    subCallsFor t (a ++ b) = subCallsFor t a ++ subCallsFor t b := by
  simp [subCallsFor, List.filterMap_append]

theorem subCallsFor_connect (t p : String) (l : List Call) :
    subCallsFor t (Call.connect p :: l) = subCallsFor t l := rfl

theorem subCallsFor_createTopic (t u : String) (l : List Call) :
    subCallsFor t (Call.createTopic u :: l) = subCallsFor t l := rfl

theorem subCallsFor_close (t : String) (l : List Call) :
    subCallsFor t (Call.close :: l) = subCallsFor t l := rfl

theorem createTopicCalls_nil : createTopicCalls [] = [] := rfl

theorem createTopicCalls_append (a b : List Call) :
    createTopicCalls (a ++ b) = createTopicCalls a ++ createTopicCalls b := by
  simp [createTopicCalls, List.filterMap_append]

theorem createTopicCalls_connect (p : String) (l : List Call) :
    createTopicCalls (Call.connect p :: l) = createTopicCalls l := rfl

theorem createTopicCalls_close (l : List Call) :
    createTopicCalls (Call.close :: l) = createTopicCalls l := rfl

theorem createTopicCalls_createTopic (u : String) (l : List Call) :
    createTopicCalls (Call.createTopic u :: l) = u :: createTopicCalls l := rfl

theorem handleSubscriptions_allOk (pid t : String) (subs : List String) :
    subCallsFor t (handleSubscriptions allOk pid t subs).1 = subs.map tokenID ∧
    (handleSubscriptions allOk pid t subs).2 = none := by
  induction subs with
  | nil => exact ⟨rfl, rfl⟩
  | cons s rest ih =>
    obtain ⟨hc, he⟩ := handleToken_allOk pid t s
    rcases ht : handleToken allOk pid t s with ⟨tr, e⟩
    rw [ht] at hc he
    simp only at hc he
    subst he
    rcases hr : handleSubscriptions allOk pid t rest with ⟨tr2, e2⟩
    rw [hr] at ih
    simp only at ih
    have hstep : handleSubscriptions allOk pid t (s :: rest) = (tr ++ tr2, e2) := by
      simp [handleSubscriptions, ht, hr]
    rw [hstep]
    refine ⟨?_, ih.2⟩
    simp [subCallsFor_append, hc, ih.1]

/-- C9: every topic entry of a parsed project stores that topic field's
subscription tokens in their original `:`-segment order, and orchestrating
the entry creates the subscriptions bound to that topic in exactly that
order (front to back). -/
theorem claimC9 (env pid t : String) (entries : Topics) (subs : List String)
    (hp : parseProject env = some (pid, entries))
    (hm : (t, subs) ∈ entries) :
    subCallsFor t (create allOk pid [(t, subs)]).1 = subs.map tokenID := by
  obtain ⟨hc, he⟩ := handleSubscriptions_allOk pid t subs
  rcases hs : handleSubscriptions allOk pid t subs with ⟨tr, e⟩
  rw [hs] at hc he
  simp only at hc he
  subst he
  have h1 : handleTopics allOk pid [(t, subs)] = (Call.createTopic t :: tr, none) := by
    simp [handleTopics, allOk_topicOk, hs]
  have h2 : create allOk pid [(t, subs)] =
      (Call.connect pid :: Call.createTopic t :: (tr ++ [Call.close]), none) := by
    simp [create, allOk_connectOk, h1]
  rw [h2]
  simp [subCallsFor_connect, subCallsFor_createTopic, subCallsFor_append,
    subCallsFor_close, subCallsFor_nil, hc]

theorem claimC9_witness :
    parseProject "p,t:s2:s1:s3+h|1" =
      some ("p", [("t", ["s2", "s1", "s3+h|1"])]) ∧
    subCallsFor "t" (create allOk "p" [("t", ["s2", "s1", "s3+h|1"])]).1 =
      ["s2", "s1", "s3+h|1"].map tokenID ∧
    ["s2", "s1", "s3+h|1"].map tokenID = ["s2", "s1", "s3"] := by
  refine ⟨by decide, ?_, by decide⟩
  exact claimC9 "p,t:s2:s1:s3+h|1" "p" "t" [("t", ["s2", "s1", "s3+h|1"])]
    ["s2", "s1", "s3+h|1"] (by decide) (by decide)

theorem handleToken_noDlq (pid t s : String) (h : isDlqToken s = false) :
    createTopicCalls (handleToken allOk pid t s).1 = [] ∧
    (handleToken allOk pid t s).2 = none := by
  rcases hsp : splitOnChar '+' s with _ | ⟨id, _ | ⟨ep, _ | ⟨third, _ | ⟨d, rest⟩⟩⟩⟩
  · simp [handleToken, hsp, handlePlain, allOk, createTopicCalls]
  · simp [handleToken, hsp, handlePlain, allOk, createTopicCalls]
  · simp [handleToken, hsp, handlePush, allOk, createTopicCalls]
  · have hd : third ≠ "dlq" := by
      simp [isDlqToken, hsp] at h
      simpa using h
    simp [handleToken, hsp, hd, handlePush, allOk, createTopicCalls]
  · simp [handleToken, hsp, handlePush, allOk, createTopicCalls]

theorem handleSubscriptions_noDlq (pid t : String) (subs : List String)
    (h : ∀ s ∈ subs, isDlqToken s = false) :
    createTopicCalls (handleSubscriptions allOk pid t subs).1 = [] ∧
    (handleSubscriptions allOk pid t subs).2 = none := by
  induction subs with
  | nil => exact ⟨rfl, rfl⟩
  | cons s rest ih =>
    obtain ⟨hc, he⟩ := handleToken_noDlq pid t s (h s (by simp))
    rcases ht : handleToken allOk pid t s with ⟨tr, e⟩
    rw [ht] at hc he
    simp only at hc he
    subst he
    have ih2 := ih (fun x hx => h x (by simp [hx]))
    rcases hr : handleSubscriptions allOk pid t rest with ⟨tr2, e2⟩
    rw [hr] at ih2
    simp only at ih2
    have hstep : handleSubscriptions allOk pid t (s :: rest) = (tr ++ tr2, e2) := by
      simp [handleSubscriptions, ht, hr]
    rw [hstep]
    refine ⟨?_, ih2.2⟩
    simp [createTopicCalls_append, hc, ih2.1]

theorem handleTopics_noDlq (pid : String) (entries : Topics)
    (h : ∀ p ∈ entries, ∀ s ∈ p.2, isDlqToken s = false) :
    createTopicCalls (handleTopics allOk pid entries).1 = entries.map Prod.fst ∧
    (handleTopics allOk pid entries).2 = none := by
  induction entries with
  | nil => exact ⟨rfl, rfl⟩
  | cons p rest ih =>
    rcases p with ⟨t, subs⟩
    obtain ⟨hc, he⟩ := handleSubscriptions_noDlq pid t subs (h (t, subs) (by simp))
    rcases hs : handleSubscriptions allOk pid t subs with ⟨tr, e⟩
    rw [hs] at hc he
    simp only at hc he
    subst he
    have ih2 := ih (fun x hx => h x (by simp [hx]))
    rcases hr : handleTopics allOk pid rest with ⟨tr2, e2⟩
    rw [hr] at ih2
    simp only at ih2
    have hstep : handleTopics allOk pid ((t, subs) :: rest) =
        (Call.createTopic t :: (tr ++ tr2), e2) := by
      simp [handleTopics, allOk_topicOk, hs, hr]
    rw [hstep]
    refine ⟨?_, ih2.2⟩
    simp [createTopicCalls_createTopic, createTopicCalls_append, hc, ih2.1]

/-- C4 counterexample: `create` iterates a Go map, whose iteration order
is unspecified; the reversed order of the entries of the project parsed
from `p,t1,t2` is a legal iteration order, and under it the topics are
created as `t2` then `t1`, not in the insertion order `t1` then `t2` the
claim demands. -/
theorem claimC4_counterexample :
    parseProject "p,t1,t2" = some ("p", [("t1", []), ("t2", [])]) ∧
    List.Perm [("t2", ([] : List String)), ("t1", [])] [("t1", []), ("t2", [])] ∧
    createTopicCalls (create allOk "p" [("t2", []), ("t1", [])]).1 = ["t2", "t1"] ∧
    (["t2", "t1"] : List String) ≠ ["t1", "t2"] := by
  exact ⟨by decide, List.Perm.swap ("t1", []) ("t2", []) [],
    by decide, by decide⟩

/-- C4 amended: the orchestrator creates a parsed project's topics in Go
map iteration order, an unspecified permutation of the comma-separated
topic fields — insertion order is not guaranteed.  (Stated for projects
without dead-letter tokens, whose topic-creation calls correspond exactly
to the declared topics.) -/
theorem claimC4_amended (env pid : String) (entries ord : Topics)
    (hp : parseProject env = some (pid, entries))
    (hperm : List.Perm ord entries)
    (hnd : ∀ p ∈ ord, ∀ s ∈ p.2, isDlqToken s = false) :
    List.Perm (createTopicCalls (create allOk pid ord).1) (entries.map Prod.fst) := by
  obtain ⟨hc, he⟩ := handleTopics_noDlq pid ord hnd
  rcases hs : handleTopics allOk pid ord with ⟨tr, e⟩
  rw [hs] at hc he
  simp only at hc he
  subst he
  have h2 : create allOk pid ord = (Call.connect pid :: (tr ++ [Call.close]), none) := by
    simp [create, allOk_connectOk, hs]
  rw [h2]
  simp only [createTopicCalls_connect, createTopicCalls_append,
    createTopicCalls_close, createTopicCalls_nil, List.append_nil]
  rw [hc]
  exact hperm.map Prod.fst

theorem claimC4_amended_witness :
    List.Perm
      (createTopicCalls (create allOk "p" [("t2", []), ("t1", [])]).1)
      ([("t1", ([] : List String)), ("t2", [])].map Prod.fst) := by
  exact claimC4_amended "p,t1,t2" "p" [("t1", []), ("t2", [])]
    [("t2", []), ("t1", [])] (by decide)
    (List.Perm.swap ("t1", []) ("t2", []) []) (by decide)

theorem parseProject_empty : parseProject "" = none := by decide

/-- C1 counterexample: with two project variables where only project 1's
topic creation fails, the run reports project 1's error and exits with
status 1 without ever connecting to project 2 or attempting its topic
`tB`, even though that creation would have succeeded — the batch does not
continue with the next environment variable's project. -/
theorem claimC1_counterexample :
    beC1.topicOk "tB" = true ∧
    run beC1 (fun m => m) ["p1,tA", "p2,tB"] =
      ⟨[Call.connect "p1", Call.createTopic "tA", Call.close], 1, false,
       some (RunError.createFailed (CreateError.topicErr "tA" "p1"))⟩ ∧
    Call.connect "p2" ∉ (run beC1 (fun m => m) ["p1,tA", "p2,tB"]).trace ∧
    Call.createTopic "tB" ∉ (run beC1 (fun m => m) ["p1,tA", "p2,tB"]).trace := by
  refine ⟨by decide, by decide, by decide, by decide⟩

/-- C1 amended: a backend failure during one project's provisioning pass
terminates that pass, its first error is reported, and the process exits
immediately with status 1 (`fatalf` at src/main.go line 174): projects
from later environment variables are not attempted. -/
theorem claimC1_amended (be : Backend) (ord : Topics → Topics) (env : String)
    (rest : List String) (i : Nat) (pid : String) (topics : Topics)
    (tr : List Call) (e : CreateError)
    (hp : parseProject env = some (pid, topics))
    (hc : create be pid (ord topics) = (tr, some e)) :
    runFrom be ord (env :: rest) i =
      ⟨tr, 1, false, some (RunError.createFailed e)⟩ := by
  have hne : env ≠ "" := by
    intro h
    subst h
    rw [parseProject_empty] at hp
    exact Option.noConfusion hp
  simp [runFrom, hne, hp, hc]

theorem claimC1_amended_witness :
    runFrom beC1 (fun m => m) ["p1,tA", "p2,tB"] 1 =
      ⟨[Call.connect "p1", Call.createTopic "tA", Call.close], 1, false,
       some (RunError.createFailed (CreateError.topicErr "tA" "p1"))⟩ :=
  claimC1_amended beC1 (fun m => m) "p1,tA" ["p2,tB"] 1 "p1" [("tA", [])]
    [Call.connect "p1", Call.createTopic "tA", Call.close]
    (CreateError.topicErr "tA" "p1") (by decide) (by decide)

/-- C5: an environment value whose split on `,` has fewer than two fields
fails to parse (the MalformedSpec failure of src/main.go line 162): no
backend call at all is issued for it (its run trace is empty), and for a
nonempty such value the process reports the malformed-spec error for that
variable and exits with status 1. -/
theorem claimC5 (env : String) (h : (splitOnChar ',' env).length < 2) :
    parseProject env = none ∧
    ∀ (be : Backend) (ord : Topics → Topics) (rest : List String) (i : Nat),
      (runFrom be ord (env :: rest) i).trace = [] ∧
      (env ≠ "" → runFrom be ord (env :: rest) i =
        ⟨[], 1, false, some (RunError.malformedSpec (envName i))⟩) := by
  have hp : parseProject env = none := by simp [parseProject, h]
  refine ⟨hp, ?_⟩
  intro be ord rest i
  by_cases he : env = ""
  · subst he
    refine ⟨?_, fun h2 => absurd rfl h2⟩
    by_cases hi : i = 1 <;> simp [runFrom, hi]
  · have hr : runFrom be ord (env :: rest) i =
        ⟨[], 1, false, some (RunError.malformedSpec (envName i))⟩ := by
      simp [runFrom, he, hp]
    exact ⟨by rw [hr], fun _ => hr⟩

theorem claimC5_witness :
    parseProject "proj1" = none ∧
    (runFrom allOk (fun m => m) ["proj1"] 1).trace = [] ∧
    runFrom allOk (fun m => m) ["proj1"] 1 =
      ⟨[], 1, false, some (RunError.malformedSpec "PUBSUB_PROJECT1")⟩ := by
  obtain ⟨h1, h2⟩ := claimC5 "proj1" (by decide)
  obtain ⟨h3, h4⟩ := h2 allOk (fun m => m) [] 1
  refine ⟨h1, h3, ?_⟩
  rw [h4 (by decide)]
  decide

theorem runFrom_ok (be : Backend) (ord : Topics → Topics) :
    ∀ (envs : List String) (i : Nat),
      1 ≤ i →
      (i = 1 → envs ≠ []) →
      (∀ e ∈ envs, e ≠ "" ∧ envOk be ord e = true) →
      runFrom be ord envs i =
        ⟨(envs.map (projTrace be ord)).join, 0, false, none⟩ := by
  intro envs
  induction envs with
  | nil =>
    intro i _ hi _
    have hne : i ≠ 1 := fun h => (hi h) rfl
    simp [runFrom, hne]
  | cons env rest ih =>
    intro i hle hi hall
    obtain ⟨hne, hok⟩ := hall env (by simp)
    rcases hp : parseProject env with _ | ⟨pid, topics⟩
    · exfalso
      simp [envOk, hp] at hok
    · rcases hc : create be pid (ord topics) with ⟨tr, e⟩
      have he : e = none := by
        have h2 := hok
        simp [envOk, hp, hc] at h2
        exact h2
      subst he
      have htail := ih (i + 1) (by omega) (fun h => absurd h (by omega))
        (fun x hx => hall x (by simp [hx]))
      have hpt : projTrace be ord env = tr := by simp [projTrace, hp, hc]
      simp [runFrom, hne, hp, hc, htail, hpt]

/-- C8: the variables PUBSUB_PROJECT1, PUBSUB_PROJECT2, ... are consumed
in increasing order, stopping at the first absent or empty one.  If
PUBSUB_PROJECT1 is absent or empty, usage is printed and the process
exits with status 1 having issued zero backend calls; if the first absent
or empty index is greater than 1 and each earlier project provisions
without error, the batch ends with exit status 0 after processing exactly
the projects at the preceding indices, in order. -/
theorem claimC8 (be : Backend) (ord : Topics → Topics) :
    run be ord [] = ⟨[], 1, true, none⟩ ∧
    (∀ rest, run be ord ("" :: rest) = ⟨[], 1, true, none⟩) ∧
    (∀ env envs, (∀ e ∈ env :: envs, e ≠ "" ∧ envOk be ord e = true) →
      run be ord (env :: envs) =
        ⟨((env :: envs).map (projTrace be ord)).join, 0, false, none⟩) := by
  refine ⟨by simp [run, runFrom], fun rest => by simp [run, runFrom], ?_⟩
  intro env envs hall
  exact runFrom_ok be ord (env :: envs) 1 (by omega) (fun _ => by simp) hall

theorem claimC8_witness :
    run allOk (fun m => m) [] = ⟨[], 1, true, none⟩ ∧
    run allOk (fun m => m) ["", "p2,t2"] = ⟨[], 1, true, none⟩ ∧
    run allOk (fun m => m) ["p1,t1", "p2,t2"] =
      ⟨[Call.connect "p1", Call.createTopic "t1", Call.close,
        Call.connect "p2", Call.createTopic "t2", Call.close], 0, false, none⟩ := by
  refine ⟨(claimC8 allOk (fun m => m)).1,
    (claimC8 allOk (fun m => m)).2.1 ["p2,t2"], ?_⟩
  rw [(claimC8 allOk (fun m => m)).2.2 "p1,t1" ["p2,t2"] (by decide)]
  decide
